import Mathlib

/-!
Verification model of the EDULINE adaptive quiz engine (`try.py`).

The mutable `st.session_state.quiz` dictionary is modelled as the `Quiz`
structure; the pandas question bank `df_all` is modelled as a `List Question`
whose per-subject row labels (`q.name` after `reset_index(drop=True)`) are the
positions produced by `List.enum` over the subject-filtered list.  The two
uses of `random` (`random.choice` over the weak-cluster list and
`subset.sample(1)`) are made deterministic by injected pick parameters taken
modulo the size of the list being sampled, so every element the program could
draw is reachable by some parameter value.  The Python dict
`quiz["weak_clusters"]` is modelled as an insertion-ordered association list.
-/

/-- One row of `questions_clus8.csv` (columns Subject, Cluster, Question,
Option A–D, Correct Answer). -/
structure Question where
  subject : String
  cluster : Int
  question : String
  option_a : String
  option_b : String
  option_c : String
  option_d : String
  correct_answer : String
deriving DecidableEq, Repr

/-- The `st.session_state.quiz` dictionary (timer tick timestamp omitted:
wall-clock time is outside the model). -/
structure Quiz where
  started : Bool
  subject : String
  cluster : Int
  question_index : Int
  total_questions : Int
  score : Int
  used_indices : List Nat
  current_question : Option Question
  submitted : Bool
  feedback : String
  weak_clusters : List (Int × Nat)
  mode : String
  weak_only_list : List Int
  time_left : Int
  enable_timer : Bool
deriving DecidableEq, Repr

/-- `CLUSTER_LIMITS = {"English": 7, "Mathematics": 8}` as a partial map. -/
def CLUSTER_LIMITS (subject : String) : Option Int :=
  if subject == "English" then some 7
  else if subject == "Mathematics" then some 8
  else none

/-- `MIN_CLUSTER = 1`. -/
def MIN_CLUSTER : Int := 1

/-- Drop leading whitespace characters from a character list. -/
def strip_leading : List Char → List Char
  | [] => []
  | c :: cs => if c.isWhitespace then strip_leading cs else c :: cs

/-- Python `str.strip()`: drop leading and trailing whitespace. -/
def py_strip (s : String) : String :=
  ⟨((strip_leading ((strip_leading s.data).reverse)).reverse)⟩

/-- Python `str.upper()` on the ASCII keys this program compares. -/
def py_upper (s : String) : String := ⟨s.data.map Char.toUpper⟩

/-- Lookup in the weak-cluster tally: Python `d.get(k, 0)`. -/
def tallyGet : List (Int × Nat) → Int → Nat
  | [], _ => 0
  | p :: rest, k => if p.1 == k then p.2 else tallyGet rest k

/-- Update of the weak-cluster tally: Python `d[k] = v` on an
insertion-ordered dict without duplicate keys. -/
def tallySet : List (Int × Nat) → Int → Nat → List (Int × Nat)
  | [], k, v => [(k, v)]
  | p :: rest, k, v => if p.1 == k then (k, v) :: rest else p :: tallySet rest k v

/-- `reset_quiz_state(subject, total_q, mode, weak_only_list, enable_timer)`
(try.py lines 148–169).  `weak_only_list=None` is the empty list after
`weak_only_list or []`. -/
def reset_quiz_state (subject : String) (total_q : Int) (mode : String)
    (weak_only_list : List Int) (enable_timer : Bool) : Quiz :=
  let mid := ((CLUSTER_LIMITS subject).getD 6) / 2
  let start_cluster := if mode == "normal" then mid else weak_only_list.headD mid
  let total_time := total_q * 15
  { started := true
    subject := subject
    cluster := start_cluster
    question_index := 0
    total_questions := total_q
    score := 0
    used_indices := []
    current_question := none
    submitted := false
    feedback := ""
    weak_clusters :=
      if mode == "normal" then []
      else weak_only_list.foldl (fun t c => tallySet t c 0) []
    mode := mode
    weak_only_list := weak_only_list
    time_left := if enable_timer then total_time else 0
    enable_timer := enable_timer }

/-- `df_all[df_all["Subject"] == subject].reset_index(drop=True)`: the
subject's rows, labelled by their position in the filtered frame. -/
def df_subj (bank : List Question) (subject : String) : List (Nat × Question) :=
  (bank.filter (fun r => r.subject == subject)).enum

/-- The target cluster of `load_next_question` (lines 173–177): the session's
cluster, except that in weak-only mode with a non-empty candidate list a
current cluster outside the list is replaced by `random.choice` over the list
(modelled by the injected index `pickC`). -/
def target_cluster (q : Quiz) (pickC : Nat) : Int :=
  if q.mode == "weak_only" && !q.weak_only_list.isEmpty then
    if q.weak_only_list.contains q.cluster then q.cluster
    else q.weak_only_list.getD (pickC % q.weak_only_list.length) 0
  else q.cluster

/-- `df_subj[df_subj["Cluster"] == target_cluster].drop(used_indices)`
(line 179). -/
def pool_primary (bank : List Question) (q : Quiz) (target : Int) :
    List (Nat × Question) :=
  (df_subj bank q.subject).filter
    (fun p => p.2.cluster == target && !(q.used_indices.contains p.1))

/-- The widened pool of lines 181–184: in weak-only mode with a non-empty
candidate list, the unused questions whose cluster is in the list; otherwise
all unused questions of the subject. -/
def pool_widened (bank : List Question) (q : Quiz) : List (Nat × Question) :=
  if q.mode == "weak_only" && !q.weak_only_list.isEmpty then
    (df_subj bank q.subject).filter
      (fun p => q.weak_only_list.contains p.2.cluster && !(q.used_indices.contains p.1))
  else
    (df_subj bank q.subject).filter (fun p => !(q.used_indices.contains p.1))

/-- The pool `load_next_question` finally samples from: the primary pool, or
the widened pool when the primary one is empty. -/
def active_pool (bank : List Question) (pickC : Nat) (q : Quiz) :
    List (Nat × Question) :=
  if (pool_primary bank q (target_cluster q pickC)).isEmpty then pool_widened bank q
  else pool_primary bank q (target_cluster q pickC)

/-- Placeholder row for the (never reached) out-of-range branch of the pool
sampler. -/
def default_question : Question :=
  { subject := "", cluster := 0, question := "", option_a := "", option_b := ""
    option_c := "", option_d := "", correct_answer := "" }

/-- `load_next_question()` (lines 171–194).  Returns the Python function's
boolean result together with the mutated quiz state: on an empty (even after
widening) pool it returns `false` and sets no question; otherwise the sampled
row (`subset.sample(1)`, modelled by `pickQ` modulo the pool size) becomes
current and its label is appended to `used_indices`. -/
def load_next_question (bank : List Question) (pickC pickQ : Nat) (quiz : Quiz) :
    Bool × Quiz :=
  let subset := active_pool bank pickC quiz
  let quiz1 := { quiz with cluster := target_cluster quiz pickC }
  if subset.isEmpty then (false, quiz1)
  else
    let p := subset.getD (pickQ % subset.length) (0, default_question)
    (true, { quiz1 with
             current_question := some p.2
             used_indices := quiz.used_indices ++ [p.1]
             submitted := false
             feedback := "" })

/-- `submit_answer(choice_key)` (lines 196–210).  Python crashes when no
question is current; the model leaves the state unchanged there, and every
theorem about this operation assumes a loaded question. -/
def submit_answer (quiz : Quiz) (choice_key : String) : Quiz :=
  match quiz.current_question with
  | none => quiz
  | some q =>
    let correct := py_upper (py_strip q.correct_answer)
    let cluster_at_time := quiz.cluster
    if choice_key == correct then
      let q1 := { quiz with score := quiz.score + 1 }
      let q2 :=
        if q1.mode == "normal" then
          { q1 with
            cluster := min ((CLUSTER_LIMITS q1.subject).getD (q1.cluster + 1)) (q1.cluster + 1) }
        else q1
      { q2 with feedback := "✅ Correct! Great job.", submitted := true }
    else
      let q1 :=
        if quiz.mode == "normal" then
          { quiz with cluster := max MIN_CLUSTER (quiz.cluster - 1) }
        else quiz
      { q1 with
        feedback := "❌ Wrong! Correct answer: " ++ correct
        weak_clusters :=
          tallySet q1.weak_clusters cluster_at_time
            (tallyGet q1.weak_clusters cluster_at_time + 1)
        submitted := true }

/-- The "Next Question" handler (lines 370–377): bump the index, clear the
current question, and finish the round when the target is reached
(`finish_and_record` sets `started := false`). -/
def advance_question (q : Quiz) : Quiz :=
  let q1 := { q with
              question_index := q.question_index + 1
              current_question := none
              submitted := false
              feedback := "" }
  if q1.total_questions ≤ q1.question_index then { q1 with started := false } else q1

/-- The "Retry Weak Areas" handler (lines 294–301): collect the positive
entries of the previous round's tally; with an empty list no weak-only
session is created (the host shows an info message instead). -/
def retry_weak_areas (subject : String) (total_q : Int) (prev : Quiz)
    (enable_timer : Bool) : Option Quiz :=
  let weak_list := (prev.weak_clusters.filter (fun p => decide (0 < p.2))).map Prod.fst
  if weak_list.isEmpty then none
  else some (reset_quiz_state subject total_q "weak_only" weak_list enable_timer)

/-- The normalized correct key `submit_answer` compares against, read off a
state's current question (empty when no question is loaded). -/
def correct_of (s : Quiz) : String :=
  match s.current_question with
  | some q => py_upper (py_strip q.correct_answer)
  | none => ""

/-- Modelled from the spec: the widened pool as §4.2 words it — "in
`weak_only` mode, widen the pool to all unused questions whose cluster is in
the candidate list; otherwise widen to all unused questions of the subject".
Kept separate from `pool_widened` (the source's pool) for comparison. -/
def widened_pool_spec (bank : List Question) (q : Quiz) : List (Nat × Question) :=
  if q.mode == "weak_only" then
    (df_subj bank q.subject).filter
      (fun p => q.weak_only_list.contains p.2.cluster && !(q.used_indices.contains p.1))
  else
    (df_subj bank q.subject).filter (fun p => !(q.used_indices.contains p.1))

/-- Modelled from the spec: the midpoint of the inclusive cluster range
`[MIN_CLUSTER, max_cluster(subject)]` that §4.1 prescribes for the start
cluster. -/
def midpoint_spec (subject : String) : Int :=
  (MIN_CLUSTER + (CLUSTER_LIMITS subject).getD 6) / 2

/-- One host-driven step of a session: a `load_next_question` call (with any
random draws), a `submit_answer` call (with any chosen key), or the advance
handler. -/
inductive QuizStep (bank : List Question) : Quiz → Quiz → Prop
  | load (pickC pickQ : Nat) (s : Quiz) :
      QuizStep bank s (load_next_question bank pickC pickQ s).2
  | submit (choice : String) (s : Quiz) :
      QuizStep bank s (submit_answer s choice)
  | advance (s : Quiz) :
      QuizStep bank s (advance_question s)

/-- All states a session can reach from a given state. -/
abbrev QuizReaches (bank : List Question) : Quiz → Quiz → Prop :=
  Relation.ReflTransGen (QuizStep bank)

/-- One round-trip of the quiz loop: load the next question and, when one was
found, submit the given answer. -/
def trace_step (bank : List Question) (pk : Nat × Nat) (c : String) (s : Quiz) : Quiz :=
  let r := load_next_question bank pk.1 pk.2 s
  if r.1 then submit_answer r.2 c else r.2

/-- The session states along a run that loads and answers one question per
step, with injected random draws `picks` and chosen keys `cs`. -/
def answer_trace (bank : List Question) (picks : Nat → Nat × Nat)
    (cs : Nat → String) (s0 : Quiz) : Nat → Quiz
  | 0 => s0
  | n + 1 => trace_step bank (picks n) (cs n) (answer_trace bank picks cs s0 n)

/-- Fixture: a Mathematics question of cluster 2 with correct key `A`. -/
def mq : Question :=
  { subject := "Mathematics", cluster := 2, question := "2+2?"
    option_a := "4", option_b := "5", option_c := "6", option_d := "7"
    correct_answer := "A" }

/-- Fixture: a bank holding only `mq`. -/
def bank1 : List Question := [mq]

/-- Fixture: a fresh normal-mode Mathematics session. -/
def quiz_m0 : Quiz := reset_quiz_state "Mathematics" 3 "normal" [] true

/-- Fixture: `quiz_m0` after one `load_next_question` draw from `bank1`; the
target cluster 4 has no questions, so `mq` (cluster 2) arrives through the
widened pool. -/
def quiz_m1 : Quiz := (load_next_question bank1 0 0 quiz_m0).2

/-- Fixture: an English question of cluster 3 with correct key `B`. -/
def enq : Question :=
  { subject := "English", cluster := 3, question := "Pick B"
    option_a := "x", option_b := "y", option_c := "z", option_d := "w"
    correct_answer := "B" }

/-- Fixture: a bank holding only `enq`. -/
def bankE : List Question := [enq]

/-- Fixture: a fresh weak-only English session over candidate cluster 3. -/
def quiz_w0 : Quiz := reset_quiz_state "English" 5 "weak_only" [3] true

/-- Fixture: `quiz_w0` after loading `enq` from `bankE`. -/
def quiz_w1 : Quiz := (load_next_question bankE 0 0 quiz_w0).2

/-- Fixture: a weak-only English session created with an empty candidate
list. -/
def quiz_e0 : Quiz := reset_quiz_state "English" 5 "weak_only" [] true

/-- Updating a tally key stores the new value at that key. -/
theorem tallyGet_tallySet_self (t : List (Int × Nat)) (k : Int) (v : Nat) :
    tallyGet (tallySet t k v) k = v := by
  induction t with
  | nil => simp [tallySet, tallyGet]
  | cons p rest ih =>
    by_cases h : p.1 = k
    · simp [tallySet, tallyGet, h]
    · simp [tallySet, tallyGet, h, ih]

/-- Updating a tally key leaves every other key's value unchanged. -/
theorem tallyGet_tallySet_ne (t : List (Int × Nat)) (k k' : Int) (v : Nat)
    (h : k' ≠ k) : tallyGet (tallySet t k v) k' = tallyGet t k' := by
  induction t with
  | nil => simp [tallySet, tallyGet, Ne.symm h]
  | cons p rest ih =>
    by_cases hp : p.1 = k
    · simp [tallySet, tallyGet, hp, Ne.symm h]
    · simp [tallySet, tallyGet, hp, ih]

/-- Updating a tally adds at most the updated key to the key set. -/
theorem tallySet_keys (t : List (Int × Nat)) (k : Int) (v : Nat) :
    ∀ k' ∈ (tallySet t k v).map Prod.fst, k' = k ∨ k' ∈ t.map Prod.fst := by
  induction t with
  | nil => intro k' hk'; simp [tallySet] at hk'; exact Or.inl hk'
  | cons p rest ih =>
    intro k' hk'
    by_cases hp : p.1 = k
    · have he : tallySet (p :: rest) k v = (k, v) :: rest := by simp [tallySet, hp]
      rw [he, List.map_cons, List.mem_cons] at hk'
      rcases hk' with h1 | h1
      · exact Or.inl h1
      · exact Or.inr (by rw [List.map_cons, List.mem_cons]; exact Or.inr h1)
    · have he : tallySet (p :: rest) k v = p :: tallySet rest k v := by simp [tallySet, hp]
      rw [he, List.map_cons, List.mem_cons] at hk'
      rcases hk' with h1 | h1
      · exact Or.inr (by rw [List.map_cons, List.mem_cons]; exact Or.inl h1)
      · rcases ih k' h1 with h2 | h2
        · exact Or.inl h2
        · exact Or.inr (by rw [List.map_cons, List.mem_cons]; exact Or.inr h2)

/-- `submit_answer` never changes the mode. -/
theorem submit_mode (s : Quiz) (c : String) : (submit_answer s c).mode = s.mode := by
  cases h : s.current_question with
  | none => simp [submit_answer, h]
  | some q => simp only [submit_answer, h]; split_ifs <;> rfl

/-- `submit_answer` never changes the subject. -/
theorem submit_subject (s : Quiz) (c : String) : (submit_answer s c).subject = s.subject := by
  cases h : s.current_question with
  | none => simp [submit_answer, h]
  | some q => simp only [submit_answer, h]; split_ifs <;> rfl

/-- `submit_answer` never touches the used-question set. -/
theorem submit_used (s : Quiz) (c : String) :
    (submit_answer s c).used_indices = s.used_indices := by
  cases h : s.current_question with
  | none => simp [submit_answer, h]
  | some q => simp only [submit_answer, h]; split_ifs <;> rfl

/-- `submit_answer` never changes the weak-only candidate list. -/
theorem submit_weak_only_list (s : Quiz) (c : String) :
    (submit_answer s c).weak_only_list = s.weak_only_list := by
  cases h : s.current_question with
  | none => simp [submit_answer, h]
  | some q => simp only [submit_answer, h]; split_ifs <;> rfl

/-- The advance handler never touches the used-question set. -/
theorem advance_used (s : Quiz) : (advance_question s).used_indices = s.used_indices := by
  simp only [advance_question]; split_ifs <;> rfl

/-- Rows of the primary pool are unused. -/
theorem mem_pool_primary_not_used (bank : List Question) (q : Quiz) (t : Int)
    (p : Nat × Question) (hp : p ∈ pool_primary bank q t) :
    p.1 ∉ q.used_indices := by
  have := List.of_mem_filter hp
  simp at this
  exact this.2

/-- Rows of the widened pool are unused. -/
theorem mem_pool_widened_not_used (bank : List Question) (q : Quiz)
    (p : Nat × Question) (hp : p ∈ pool_widened bank q) :
    p.1 ∉ q.used_indices := by
  unfold pool_widened at hp
  split_ifs at hp
  · have := List.of_mem_filter hp
    simp at this
    exact this.2
  · have := List.of_mem_filter hp
    simp at this
    exact this

/-- Rows of the sampled pool are unused. -/
theorem mem_active_pool_not_used (bank : List Question) (pickC : Nat) (q : Quiz)
    (p : Nat × Question) (hp : p ∈ active_pool bank pickC q) :
    p.1 ∉ q.used_indices := by
  unfold active_pool at hp
  split_ifs at hp
  · exact mem_pool_widened_not_used bank q p hp
  · exact mem_pool_primary_not_used bank q _ p hp

/-- `List.getD` at an in-range index is a member. -/
theorem list_getD_mem {α : Type} (l : List α) (d : α) (i : Nat) (h : i < l.length) :
    l.getD i d ∈ l := by
  rw [List.getD_eq_getElem l d h]
  exact List.getElem_mem h

/-- `load_next_question` sets the cluster to the target cluster on every
path. -/
theorem load_cluster (bank : List Question) (pickC pickQ : Nat) (s : Quiz) :
    ((load_next_question bank pickC pickQ s).2).cluster = target_cluster s pickC := by
  unfold load_next_question
  by_cases h : (active_pool bank pickC s).isEmpty <;> simp [h]

/-- `load_next_question` never changes the mode. -/
theorem load_mode (bank : List Question) (pickC pickQ : Nat) (s : Quiz) :
    ((load_next_question bank pickC pickQ s).2).mode = s.mode := by
  unfold load_next_question
  by_cases h : (active_pool bank pickC s).isEmpty <;> simp [h]

/-- `load_next_question` never changes the subject. -/
theorem load_subject (bank : List Question) (pickC pickQ : Nat) (s : Quiz) :
    ((load_next_question bank pickC pickQ s).2).subject = s.subject := by
  unfold load_next_question
  by_cases h : (active_pool bank pickC s).isEmpty <;> simp [h]

/-- `load_next_question` never changes the weak-only candidate list. -/
theorem load_weak_only_list (bank : List Question) (pickC pickQ : Nat) (s : Quiz) :
    ((load_next_question bank pickC pickQ s).2).weak_only_list = s.weak_only_list := by
  unfold load_next_question
  by_cases h : (active_pool bank pickC s).isEmpty <;> simp [h]

/-- `load_next_question` never changes the weak-cluster tally. -/
theorem load_weak_clusters (bank : List Question) (pickC pickQ : Nat) (s : Quiz) :
    ((load_next_question bank pickC pickQ s).2).weak_clusters = s.weak_clusters := by
  unfold load_next_question
  by_cases h : (active_pool bank pickC s).isEmpty <;> simp [h]

/-- In normal mode the target cluster is just the session's cluster. -/
theorem target_cluster_of_normal (s : Quiz) (pickC : Nat) (h : s.mode = "normal") :
    target_cluster s pickC = s.cluster := by
  simp [target_cluster, h]

/-- On a successful load, the current question comes from the sampled pool
and its label is appended to the used set. -/
theorem load_success (bank : List Question) (pickC pickQ : Nat) (s : Quiz)
    (h : (load_next_question bank pickC pickQ s).1 = true) :
    ∃ p, p ∈ active_pool bank pickC s ∧
      ((load_next_question bank pickC pickQ s).2).current_question = some p.2 ∧
      ((load_next_question bank pickC pickQ s).2).used_indices = s.used_indices ++ [p.1] := by
  by_cases he : (active_pool bank pickC s).isEmpty
  · simp [load_next_question, he] at h
  · refine ⟨(active_pool bank pickC s).getD
      (pickQ % (active_pool bank pickC s).length) (0, default_question), ?_, ?_, ?_⟩
    · apply list_getD_mem
      apply Nat.mod_lt
      have : active_pool bank pickC s ≠ [] := by simpa [List.isEmpty_iff] using he
      exact List.length_pos.mpr this
    · simp [load_next_question, he]
    · simp [load_next_question, he]

/-- On a failed load, only the cluster field can have changed (by the
weak-only target re-pick that precedes the pool test). -/
theorem load_failure (bank : List Question) (pickC pickQ : Nat) (s : Quiz)
    (h : (load_next_question bank pickC pickQ s).1 = false) :
    (load_next_question bank pickC pickQ s).2 = { s with cluster := target_cluster s pickC } := by
  by_cases he : (active_pool bank pickC s).isEmpty <;> simp [load_next_question, he] at h ⊢

/-- A load keeps the used set duplicate-free. -/
theorem load_nodup (bank : List Question) (pickC pickQ : Nat) (s : Quiz)
    (h : s.used_indices.Nodup) :
    ((load_next_question bank pickC pickQ s).2).used_indices.Nodup := by
  cases hr : (load_next_question bank pickC pickQ s).1
  · rw [load_failure bank pickC pickQ s hr]
    exact h
  · obtain ⟨p, hp, _, hu⟩ := load_success bank pickC pickQ s hr
    rw [hu]
    have hnot := mem_active_pool_not_used bank pickC s p hp
    simp [List.nodup_append, h, hnot]

/-- Every session step keeps the used set duplicate-free. -/
theorem quiz_step_used_nodup {bank : List Question} {s t : Quiz}
    (h : QuizStep bank s t) (hn : s.used_indices.Nodup) : t.used_indices.Nodup := by
  cases h with
  | load pC pQ s => exact load_nodup bank pC pQ s hn
  | submit c s => rw [submit_used]; exact hn
  | advance s => rw [advance_used]; exact hn

theorem submit_cluster_of_not_normal (s : Quiz) (c : String) (h : s.mode ≠ "normal") :
    (submit_answer s c).cluster = s.cluster := by
  cases hq : s.current_question with
  | none => simp [submit_answer, hq]
  | some q =>
    by_cases hc : c = py_upper (py_strip q.correct_answer) <;>
      simp [submit_answer, hq, hc, h]

theorem submit_cluster_correct (s : Quiz) (q : Question) (c : String)
    (hq : s.current_question = some q) (hm : s.mode = "normal")
    (hc : c = py_upper (py_strip q.correct_answer)) :
    (submit_answer s c).cluster =
      min ((CLUSTER_LIMITS s.subject).getD (s.cluster + 1)) (s.cluster + 1) := by
  simp [submit_answer, hq, hc, hm]

theorem submit_cluster_wrong (s : Quiz) (q : Question) (c : String)
    (hq : s.current_question = some q) (hm : s.mode = "normal")
    (hc : c ≠ py_upper (py_strip q.correct_answer)) :
    (submit_answer s c).cluster = max MIN_CLUSTER (s.cluster - 1) := by
  simp [submit_answer, hq, hc, hm]

theorem trace_step_mode (bank : List Question) (pk : Nat × Nat) (c : String) (s : Quiz) :
    (trace_step bank pk c s).mode = s.mode := by
  unfold trace_step
  by_cases h : (load_next_question bank pk.1 pk.2 s).1 <;>
    simp [h, submit_mode, load_mode]

theorem trace_step_subject (bank : List Question) (pk : Nat × Nat) (c : String) (s : Quiz) :
    (trace_step bank pk c s).subject = s.subject := by
  unfold trace_step
  by_cases h : (load_next_question bank pk.1 pk.2 s).1 <;>
    simp [h, submit_subject, load_subject]

theorem trace_step_cluster (bank : List Question) (pk : Nat × Nat) (c : String)
    (s : Quiz) (L : Int) (hm : s.mode = "normal")
    (hL : CLUSTER_LIMITS s.subject = some L)
    (h1 : MIN_CLUSTER ≤ s.cluster) (h2 : s.cluster ≤ L) :
    (MIN_CLUSTER ≤ (trace_step bank pk c s).cluster ∧ (trace_step bank pk c s).cluster ≤ L)
    ∧ (((load_next_question bank pk.1 pk.2 s).1 = true →
          c = correct_of (load_next_question bank pk.1 pk.2 s).2) →
        s.cluster ≤ (trace_step bank pk c s).cluster)
    ∧ (((load_next_question bank pk.1 pk.2 s).1 = true →
          c ≠ correct_of (load_next_question bank pk.1 pk.2 s).2) →
        (trace_step bank pk c s).cluster ≤ s.cluster) := by
  have hMINL : MIN_CLUSTER ≤ L := le_trans h1 h2
  by_cases hok : (load_next_question bank pk.1 pk.2 s).1
  · obtain ⟨p, hp, hcq, _⟩ := load_success bank pk.1 pk.2 s hok
    have hc2 : ((load_next_question bank pk.1 pk.2 s).2).cluster = s.cluster := by
      rw [load_cluster, target_cluster_of_normal s pk.1 hm]
    have hm2 : ((load_next_question bank pk.1 pk.2 s).2).mode = "normal" := by
      rw [load_mode]; exact hm
    have hsub2 : ((load_next_question bank pk.1 pk.2 s).2).subject = s.subject :=
      load_subject bank pk.1 pk.2 s
    have hco : correct_of (load_next_question bank pk.1 pk.2 s).2 =
        py_upper (py_strip p.2.correct_answer) := by
      simp [correct_of, hcq]
    have hstep : trace_step bank pk c s = submit_answer (load_next_question bank pk.1 pk.2 s).2 c := by
      simp [trace_step, hok]
    by_cases hc : c = py_upper (py_strip p.2.correct_answer)
    · have hcl : (trace_step bank pk c s).cluster = min L (s.cluster + 1) := by
        rw [hstep, submit_cluster_correct _ p.2 c hcq hm2 hc, hsub2, hc2, hL]
        rfl
      refine ⟨⟨?_, ?_⟩, ?_, ?_⟩
      · rw [hcl]; exact le_min hMINL (by omega)
      · rw [hcl]; exact min_le_left L _
      · intro _; rw [hcl]; exact le_min h2 (by omega)
      · intro hw
        exact absurd (hco ▸ hc) (hw hok)
    · have hcl : (trace_step bank pk c s).cluster = max MIN_CLUSTER (s.cluster - 1) := by
        rw [hstep, submit_cluster_wrong _ p.2 c hcq hm2 hc, hc2]
      refine ⟨⟨?_, ?_⟩, ?_, ?_⟩
      · rw [hcl]; exact le_max_left _ _
      · rw [hcl]; exact max_le hMINL (by omega)
      · intro hcor
        exact absurd (hco ▸ hcor hok) hc
      · intro _; rw [hcl]; exact max_le h1 (by omega)
    
  · have hfalse : (load_next_question bank pk.1 pk.2 s).1 = false := by
      simpa using hok
    have hstep : trace_step bank pk c s = (load_next_question bank pk.1 pk.2 s).2 := by
      simp [trace_step, hfalse]
    have hcl : (trace_step bank pk c s).cluster = s.cluster := by
      rw [hstep, load_cluster, target_cluster_of_normal s pk.1 hm]
    exact ⟨⟨by rw [hcl]; exact h1, by rw [hcl]; exact h2⟩,
      fun _ => by rw [hcl], fun _ => by rw [hcl]⟩

theorem answer_trace_invariant (bank : List Question) (picks : Nat → Nat × Nat)
    (cs : Nat → String) (s0 : Quiz) (L : Int) (hm : s0.mode = "normal")
    (hL : CLUSTER_LIMITS s0.subject = some L)
    (hlo : MIN_CLUSTER ≤ s0.cluster) (hhi : s0.cluster ≤ L) :
    ∀ i, (answer_trace bank picks cs s0 i).mode = "normal" ∧
      (answer_trace bank picks cs s0 i).subject = s0.subject ∧
      MIN_CLUSTER ≤ (answer_trace bank picks cs s0 i).cluster ∧
      (answer_trace bank picks cs s0 i).cluster ≤ L := by
  intro i
  induction i with
  | zero => exact ⟨hm, rfl, hlo, hhi⟩
  | succ i ih =>
    obtain ⟨ihm, ihs, ih1, ih2⟩ := ih
    have hstep := trace_step_cluster bank (picks i) (cs i)
      (answer_trace bank picks cs s0 i) L ihm (ihs ▸ hL) ih1 ih2
    exact ⟨(trace_step_mode _ _ _ _).trans ihm,
      (trace_step_subject _ _ _ _).trans ihs, hstep.1.1, hstep.1.2⟩

/-- C5: in normal mode, along any run that loads and answers one question per
step, if every submitted answer is correct the current cluster is
non-decreasing and never exceeds the subject's maximum cluster, and if every
submitted answer is incorrect it is non-increasing and never falls below
`MIN_CLUSTER`. -/
theorem normal_cluster_monotone (bank : List Question) (picks : Nat → Nat × Nat)
    (cs : Nat → String) (s0 : Quiz) (L : Int) (n : Nat) (hm : s0.mode = "normal")
    (hL : CLUSTER_LIMITS s0.subject = some L)
    (hlo : MIN_CLUSTER ≤ s0.cluster) (hhi : s0.cluster ≤ L) :
    ((∀ i, i < n →
        ((load_next_question bank (picks i).1 (picks i).2 (answer_trace bank picks cs s0 i)).1 = true →
          cs i = correct_of (load_next_question bank (picks i).1 (picks i).2 (answer_trace bank picks cs s0 i)).2)) →
      ∀ i, i < n →
        (answer_trace bank picks cs s0 i).cluster ≤ (answer_trace bank picks cs s0 (i + 1)).cluster ∧
        (answer_trace bank picks cs s0 (i + 1)).cluster ≤ L)
    ∧ ((∀ i, i < n →
        ((load_next_question bank (picks i).1 (picks i).2 (answer_trace bank picks cs s0 i)).1 = true →
          cs i ≠ correct_of (load_next_question bank (picks i).1 (picks i).2 (answer_trace bank picks cs s0 i)).2)) →
      ∀ i, i < n →
        (answer_trace bank picks cs s0 (i + 1)).cluster ≤ (answer_trace bank picks cs s0 i).cluster ∧
        MIN_CLUSTER ≤ (answer_trace bank picks cs s0 (i + 1)).cluster) := by
  have hinv := answer_trace_invariant bank picks cs s0 L hm hL hlo hhi
  constructor
  · intro H i hi
    obtain ⟨ihm, ihs, ih1, ih2⟩ := hinv i
    have hstep := trace_step_cluster bank (picks i) (cs i)
      (answer_trace bank picks cs s0 i) L ihm (ihs ▸ hL) ih1 ih2
    exact ⟨hstep.2.1 (H i hi), (hinv (i + 1)).2.2.2⟩
  · intro H i hi
    obtain ⟨ihm, ihs, ih1, ih2⟩ := hinv i
    have hstep := trace_step_cluster bank (picks i) (cs i)
      (answer_trace bank picks cs s0 i) L ihm (ihs ▸ hL) ih1 ih2
    exact ⟨hstep.2.2 (H i hi), (hinv (i + 1)).2.2.1⟩

/-- Witness for `normal_cluster_monotone`: a one-step all-correct run on a
concrete Mathematics session. -/
theorem normal_cluster_monotone_witness :
    (answer_trace bank1 (fun _ => (0, 0)) (fun _ => "A") quiz_m0 0).cluster ≤
      (answer_trace bank1 (fun _ => (0, 0)) (fun _ => "A") quiz_m0 1).cluster ∧
    (answer_trace bank1 (fun _ => (0, 0)) (fun _ => "A") quiz_m0 1).cluster ≤ 8 :=
  (normal_cluster_monotone bank1 (fun _ => (0, 0)) (fun _ => "A") quiz_m0 8 1
    rfl rfl (by decide) (by decide)).1 (by decide) 0 (by decide)

theorem advance_mode (s : Quiz) : (advance_question s).mode = s.mode := by
  simp only [advance_question]; split_ifs <;> rfl

theorem advance_subject (s : Quiz) : (advance_question s).subject = s.subject := by
  simp only [advance_question]; split_ifs <;> rfl

theorem advance_cluster (s : Quiz) : (advance_question s).cluster = s.cluster := by
  simp only [advance_question]; split_ifs <;> rfl

theorem advance_weak_only_list (s : Quiz) :
    (advance_question s).weak_only_list = s.weak_only_list := by
  simp only [advance_question]; split_ifs <;> rfl

theorem advance_weak_clusters (s : Quiz) :
    (advance_question s).weak_clusters = s.weak_clusters := by
  simp only [advance_question]; split_ifs <;> rfl

theorem target_cluster_mem (s : Quiz) (pickC : Nat) (hm : s.mode = "weak_only")
    (hl : s.weak_only_list ≠ []) : target_cluster s pickC ∈ s.weak_only_list := by
  have hie : s.weak_only_list.isEmpty = false := by
    simp [List.isEmpty_iff, hl]
  by_cases hc : s.cluster ∈ s.weak_only_list
  · have ht : target_cluster s pickC = s.cluster := by
      simp [target_cluster, hm, hie, hc]
    rw [ht]
    exact hc
  · have ht : target_cluster s pickC =
        s.weak_only_list.getD (pickC % s.weak_only_list.length) 0 := by
      simp [target_cluster, hm, hie, hc]
    rw [ht]
    apply list_getD_mem
    apply Nat.mod_lt
    exact List.length_pos.mpr hl

theorem submit_weak_clusters_cases (s : Quiz) (c : String) :
    (submit_answer s c).weak_clusters = s.weak_clusters ∨
    (submit_answer s c).weak_clusters =
      tallySet s.weak_clusters s.cluster (tallyGet s.weak_clusters s.cluster + 1) := by
  cases hq : s.current_question with
  | none => left; simp [submit_answer, hq]
  | some q =>
    by_cases hc : c = py_upper (py_strip q.correct_answer)
    · left
      by_cases hm : s.mode = "normal" <;> simp [submit_answer, hq, hc, hm]
    · right
      by_cases hm : s.mode = "normal" <;> simp [submit_answer, hq, hc, hm]

theorem submit_tally_wrong (s : Quiz) (q : Question) (c : String)
    (hq : s.current_question = some q)
    (hc : c ≠ py_upper (py_strip q.correct_answer)) :
    (submit_answer s c).weak_clusters =
      tallySet s.weak_clusters s.cluster (tallyGet s.weak_clusters s.cluster + 1) := by
  by_cases hm : s.mode = "normal" <;> simp [submit_answer, hq, hc, hm]

theorem foldl_tallySet_keys (wl : List Int) (t0 : List (Int × Nat)) :
    ∀ k ∈ (wl.foldl (fun t c => tallySet t c 0) t0).map Prod.fst,
      k ∈ wl ∨ k ∈ t0.map Prod.fst := by
  induction wl generalizing t0 with
  | nil => intro k hk; exact Or.inr hk
  | cons c rest ih =>
    intro k hk
    rcases ih (tallySet t0 c 0) k hk with h1 | h1
    · exact Or.inl (List.mem_cons_of_mem c h1)
    · rcases tallySet_keys t0 c 0 k h1 with h2 | h2
      · exact Or.inl (h2 ▸ List.mem_cons_self c rest)
      · exact Or.inr h2

theorem quiz_step_weak_invariant {bank : List Question} {s t : Quiz} {wl : List Int}
    (h : QuizStep bank s t)
    (hw : s.mode = "weak_only" ∧ s.weak_only_list = wl ∧ s.cluster ∈ wl ∧
      ∀ k ∈ s.weak_clusters.map Prod.fst, k ∈ wl) :
    t.mode = "weak_only" ∧ t.weak_only_list = wl ∧ t.cluster ∈ wl ∧
      ∀ k ∈ t.weak_clusters.map Prod.fst, k ∈ wl := by
  obtain ⟨hm, hlist, hclu, htally⟩ := hw
  have hne : wl ≠ [] := List.ne_nil_of_mem hclu
  cases h with
  | load pC pQ s =>
    refine ⟨(load_mode bank pC pQ s).trans hm, (load_weak_only_list bank pC pQ s).trans hlist, ?_, ?_⟩
    · rw [load_cluster]
      have := target_cluster_mem s pC hm (hlist ▸ hne)
      exact hlist ▸ this
    · rw [load_weak_clusters]
      exact htally
  | submit c s =>
    refine ⟨(submit_mode s c).trans hm, (submit_weak_only_list s c).trans hlist, ?_, ?_⟩
    · rw [submit_cluster_of_not_normal s c (by rw [hm]; decide)]
      exact hclu
    · rcases submit_weak_clusters_cases s c with hcase | hcase
      · rw [hcase]; exact htally
      · rw [hcase]
        intro k hk
        rcases tallySet_keys s.weak_clusters s.cluster _ k hk with h1 | h1
        · exact h1 ▸ hclu
        · exact htally k h1
  | advance s =>
    refine ⟨(advance_mode s).trans hm, (advance_weak_only_list s).trans hlist, ?_, ?_⟩
    · rw [advance_cluster]; exact hclu
    · rw [advance_weak_clusters]; exact htally

/-- C10: a weak-only session created over a non-empty candidate list keeps
its mode and candidate list fixed, keeps the current cluster inside the
candidate list at every reachable state, and every key of the weak-cluster
tally is a member of the candidate list. -/
theorem weak_only_session_invariant (bank : List Question) (subject : String)
    (total_q : Int) (wl : List Int) (et : Bool) (hwl : wl ≠ []) (s : Quiz)
    (h : QuizReaches bank (reset_quiz_state subject total_q "weak_only" wl et) s) :
    s.mode = "weak_only" ∧ s.weak_only_list = wl ∧ s.cluster ∈ wl ∧
      ∀ k ∈ s.weak_clusters.map Prod.fst, k ∈ wl := by
  induction h with
  | refl =>
    refine ⟨rfl, rfl, ?_, ?_⟩
    · have ht : (reset_quiz_state subject total_q "weak_only" wl et).cluster =
          wl.headD (((CLUSTER_LIMITS subject).getD 6) / 2) := by
        simp [reset_quiz_state]
      rw [ht]
      cases wl with
      | nil => exact absurd rfl hwl
      | cons a as => simp
    · have ht : (reset_quiz_state subject total_q "weak_only" wl et).weak_clusters =
          wl.foldl (fun t c => tallySet t c 0) [] := by
        simp [reset_quiz_state]
      rw [ht]
      intro k hk
      rcases foldl_tallySet_keys wl [] k hk with h1 | h1
      · exact h1
      · simp at h1
  | tail _ hstep ih => exact quiz_step_weak_invariant hstep ih

/-- Witness for `weak_only_session_invariant`: the freshly created weak-only
session over candidates `[2, 5]` sits at cluster 2 with tally keys `[2, 5]`. -/
theorem weak_only_session_invariant_witness :
    (reset_quiz_state "English" 4 "weak_only" [2, 5] true).mode = "weak_only" ∧
    (reset_quiz_state "English" 4 "weak_only" [2, 5] true).weak_only_list = [2, 5] ∧
    (reset_quiz_state "English" 4 "weak_only" [2, 5] true).cluster ∈ [2, 5] ∧
    ∀ k ∈ (reset_quiz_state "English" 4 "weak_only" [2, 5] true).weak_clusters.map Prod.fst,
      k ∈ ([2, 5] : List Int) :=
  weak_only_session_invariant [] "English" 4 [2, 5] true (by decide) _
    Relation.ReflTransGen.refl

/-- C4: from any freshly created session, every reachable state has a
duplicate-free used-question set, and every candidate pool (primary or
widened) excludes all used identifiers, so no question identifier is ever
selected twice within a session. -/
theorem session_no_repeat (bank : List Question) (subject : String) (total_q : Int)
    (mode : String) (wl : List Int) (et : Bool) (s : Quiz)
    (h : QuizReaches bank (reset_quiz_state subject total_q mode wl et) s) :
    s.used_indices.Nodup ∧
    (∀ t p, p ∈ pool_primary bank s t → p.1 ∉ s.used_indices) ∧
    (∀ p, p ∈ pool_widened bank s → p.1 ∉ s.used_indices) := by
  refine ⟨?_, fun t p hp => mem_pool_primary_not_used bank s t p hp,
    fun p hp => mem_pool_widened_not_used bank s p hp⟩
  induction h with
  | refl => simp [reset_quiz_state]
  | tail _ hstep ih => exact quiz_step_used_nodup hstep ih

/-- Witness for `session_no_repeat`: the state one load step after a fresh
session has a duplicate-free used set. -/
theorem session_no_repeat_witness : quiz_m1.used_indices.Nodup :=
  (session_no_repeat bank1 "Mathematics" 3 "normal" [] true quiz_m1
    (Relation.ReflTransGen.single (QuizStep.load 0 0 quiz_m0))).1

/-- C9: in weak-only mode, submitting any answer on a loaded question leaves
the current cluster unchanged. -/
theorem weak_only_submit_keeps_cluster (s : Quiz) (q : Question) (c : String)
    (hm : s.mode = "weak_only") (_hq : s.current_question = some q) :
    (submit_answer s c).cluster = s.cluster :=
  submit_cluster_of_not_normal s c (by rw [hm]; decide)

/-- Witness for `weak_only_submit_keeps_cluster` on a loaded weak-only
session. -/
theorem weak_only_submit_keeps_cluster_witness :
    (submit_answer quiz_w1 "A").cluster = quiz_w1.cluster :=
  weak_only_submit_keeps_cluster quiz_w1 enq "A" (by decide) (by decide)

/-- C1 counterexample: the chosen key `"a"` equals the correct key `"A"`
after whitespace-trimming and case-folding of both, yet `submit_answer`
judges it incorrect (the code normalizes only the stored correct key, never
the chosen key). -/
theorem submit_answer_case_insensitive_cx :
    quiz_m1.current_question = some mq ∧
    py_upper (py_strip "a") = py_upper (py_strip mq.correct_answer) ∧
    (submit_answer quiz_m1 "a").score = quiz_m1.score ∧
    (submit_answer quiz_m1 "a").feedback ≠ "✅ Correct! Great job." := by decide

/-- C1 (amended): an answer is judged correct exactly when the chosen key,
taken verbatim, equals the whitespace-trimmed upper-cased correct key. -/
theorem submit_answer_correct_iff (s : Quiz) (q : Question) (c : String)
    (hq : s.current_question = some q) :
    ((submit_answer s c).score = s.score + 1 ↔
      c = py_upper (py_strip q.correct_answer)) := by
  by_cases hc : c = py_upper (py_strip q.correct_answer)
  · by_cases hm : s.mode = "normal" <;> simp [submit_answer, hq, hc, hm]
  · have hsc : (submit_answer s c).score = s.score := by
      by_cases hm : s.mode = "normal" <;> simp [submit_answer, hq, hc, hm]
    rw [hsc]
    constructor
    · intro h; omega
    · intro h; exact absurd h hc

/-- Witness for `submit_answer_correct_iff` at the loaded Mathematics
question. -/
theorem submit_answer_correct_iff_witness :
    ((submit_answer quiz_m1 "A").score = quiz_m1.score + 1 ↔
      ("A" : String) = py_upper (py_strip mq.correct_answer)) :=
  submit_answer_correct_iff quiz_m1 mq "A" (by decide)

/-- C2 counterexample: `mq` (cluster 2) is drawn through the widened pool
while the session's cluster is 4; after an incorrect answer the tally entry
of the question's own cluster 2 stays 0 while the entry of the session
cluster 4 becomes 1. -/
theorem submit_answer_tally_widened_cx :
    quiz_m1.current_question = some mq ∧ mq.cluster = 2 ∧ quiz_m1.cluster = 4 ∧
    "B" ≠ py_upper (py_strip mq.correct_answer) ∧
    tallyGet (submit_answer quiz_m1 "B").weak_clusters 2 = 0 ∧
    tallyGet (submit_answer quiz_m1 "B").weak_clusters 4 = 1 := by decide

/-- C2 (amended): an incorrect submission increments by exactly 1 the tally
entry of the session's current cluster as read at the start of the call (the
cluster at presentation time, before this call's regression), leaving every
other entry unchanged. -/
theorem submit_answer_tally_presentation_cluster (s : Quiz) (q : Question) (c : String)
    (hq : s.current_question = some q)
    (hc : c ≠ py_upper (py_strip q.correct_answer)) :
    tallyGet (submit_answer s c).weak_clusters s.cluster
      = tallyGet s.weak_clusters s.cluster + 1 ∧
    ∀ k, k ≠ s.cluster →
      tallyGet (submit_answer s c).weak_clusters k = tallyGet s.weak_clusters k := by
  rw [submit_tally_wrong s q c hq hc]
  exact ⟨tallyGet_tallySet_self _ _ _, fun k hk => tallyGet_tallySet_ne _ _ _ _ hk⟩

/-- Witness for `submit_answer_tally_presentation_cluster` at the loaded
Mathematics question. -/
theorem submit_answer_tally_presentation_cluster_witness :
    tallyGet (submit_answer quiz_m1 "B").weak_clusters quiz_m1.cluster
      = tallyGet quiz_m1.weak_clusters quiz_m1.cluster + 1 :=
  (submit_answer_tally_presentation_cluster quiz_m1 mq "B" (by decide) (by decide)).1

/-- C3 counterexample: creating a weak-only session with an empty candidate
list does not fail — it produces a started weak-only session (midpoint
cluster, empty tally) instead of a `NoWeakAreas` error. -/
theorem weak_only_empty_no_failure_cx :
    quiz_e0.started = true ∧ quiz_e0.mode = "weak_only" ∧ quiz_e0.cluster = 3 ∧
    quiz_e0.weak_clusters = [] := by decide

/-- C3 (amended): `reset_quiz_state` itself never fails: with an empty
weak-candidates list it still produces a started session, falling back to
the midpoint start cluster with an empty tally; the refusal to start a
weak-only round lives in the host handler, which creates no session when the
collected weak list is empty. -/
theorem reset_weak_only_empty_list (subject : String) (n : Int) (et : Bool)
    (prev : Quiz)
    (hprev : (prev.weak_clusters.filter (fun p => decide (0 < p.2))).isEmpty = true) :
    (reset_quiz_state subject n "weak_only" [] et).started = true ∧
    (reset_quiz_state subject n "weak_only" [] et).cluster =
      ((CLUSTER_LIMITS subject).getD 6) / 2 ∧
    (reset_quiz_state subject n "weak_only" [] et).weak_clusters = [] ∧
    retry_weak_areas subject n prev et = none := by
  have h1 : (prev.weak_clusters.filter (fun p => decide (0 < p.2))).map Prod.fst = [] := by
    rw [List.isEmpty_iff] at hprev
    rw [hprev]
    rfl
  exact ⟨rfl, by simp [reset_quiz_state], rfl, by simp [retry_weak_areas, h1]⟩

/-- Witness for `reset_weak_only_empty_list` on a previous session with an
all-zero tally. -/
theorem reset_weak_only_empty_list_witness :
    (reset_quiz_state "English" 5 "weak_only" [] true).started = true ∧
    (reset_quiz_state "English" 5 "weak_only" [] true).cluster =
      ((CLUSTER_LIMITS "English").getD 6) / 2 ∧
    (reset_quiz_state "English" 5 "weak_only" [] true).weak_clusters = [] ∧
    retry_weak_areas "English" 5 quiz_m0 true = none :=
  reset_weak_only_empty_list "English" 5 true quiz_m0 (by decide)

/-- C7 counterexample: for English the code's start cluster is `7 // 2 = 3`,
not the midpoint 4 of the inclusive range `[1, 7]` that the claim
prescribes. -/
theorem start_cluster_midpoint_cx :
    (reset_quiz_state "English" 5 "normal" [] true).cluster = 3 ∧
    midpoint_spec "English" = 4 := by decide

/-- C7 (amended): the start cluster is half the subject's maximum cluster
(`CLUSTER_LIMITS.get(subject, 6) // 2`) in normal mode — which coincides with
the range midpoint for Mathematics (4) but is 3 for English — the first
candidate in weak-only mode with a non-empty list, and the same halved value
as fallback for an empty list. -/
theorem reset_start_cluster (subject : String) (n : Int) (wl : List Int) (et : Bool)
    (hwl : wl ≠ []) :
    (reset_quiz_state subject n "normal" wl et).cluster =
      ((CLUSTER_LIMITS subject).getD 6) / 2 ∧
    (reset_quiz_state subject n "weak_only" wl et).cluster = wl.headD 0 ∧
    (reset_quiz_state subject n "weak_only" ([] : List Int) et).cluster =
      ((CLUSTER_LIMITS subject).getD 6) / 2 ∧
    (reset_quiz_state "Mathematics" n "normal" wl et).cluster = 4 := by
  refine ⟨by simp [reset_quiz_state], ?_, by simp [reset_quiz_state],
    by simp [reset_quiz_state, CLUSTER_LIMITS]⟩
  cases wl with
  | nil => exact absurd rfl hwl
  | cons a as => simp [reset_quiz_state]

/-- Witness for `reset_start_cluster` at concrete subjects and candidate
list. -/
theorem reset_start_cluster_witness :
    (reset_quiz_state "English" 5 "normal" [6] true).cluster =
      ((CLUSTER_LIMITS "English").getD 6) / 2 ∧
    (reset_quiz_state "English" 5 "weak_only" [6] true).cluster =
      ([6] : List Int).headD 0 ∧
    (reset_quiz_state "English" 5 "weak_only" ([] : List Int) true).cluster =
      ((CLUSTER_LIMITS "English").getD 6) / 2 ∧
    (reset_quiz_state "Mathematics" 5 "normal" [6] true).cluster = 4 :=
  reset_start_cluster "English" 5 [6] true (by decide)

/-- C8 counterexample: a requested total of 0 questions (< 1) still produces
a started session — there is no `InvalidConfiguration` failure anywhere in
the code. -/
theorem total_questions_validation_cx :
    ((0 : Int) < 1) ∧
    (reset_quiz_state "Mathematics" 0 "normal" [] true).started = true ∧
    (reset_quiz_state "Mathematics" 0 "normal" [] true).total_questions = 0 := by decide

/-- C8 (amended): `reset_quiz_state` performs no validation of the requested
total: for every count below 1 it still produces a started session carrying
that count (the host UI's slider, which only offers 3–20, is the sole
restriction). -/
theorem reset_no_validation (subject : String) (mode : String) (wl : List Int)
    (et : Bool) (n : Int) (_h : n < 1) :
    (reset_quiz_state subject n mode wl et).started = true ∧
    (reset_quiz_state subject n mode wl et).total_questions = n :=
  ⟨rfl, rfl⟩

/-- Witness for `reset_no_validation` at a zero question count. -/
theorem reset_no_validation_witness :
    (reset_quiz_state "English" 0 "normal" [] true).started = true ∧
    (reset_quiz_state "English" 0 "normal" [] true).total_questions = 0 :=
  reset_no_validation "English" "normal" [] true 0 (by decide)

/-- C6: when the primary pool (unused questions of the subject and target
cluster) is empty, the pool is widened exactly as the spec describes it —
provided a weak-only session has a non-empty candidate list: the widened
pool coincides with the code's, an empty widened pool makes the operation
fail with no question set and no used-set change, and a non-empty widened
pool yields a current question drawn from it whose identifier is marked
used. -/
theorem load_widening_behavior (bank : List Question) (pickC pickQ : Nat) (quiz : Quiz)
    (hwl : quiz.mode = "weak_only" → quiz.weak_only_list ≠ [])
    (hempty : pool_primary bank quiz (target_cluster quiz pickC) = []) :
    widened_pool_spec bank quiz = pool_widened bank quiz
    ∧ (widened_pool_spec bank quiz = [] →
        (load_next_question bank pickC pickQ quiz).1 = false ∧
        ((load_next_question bank pickC pickQ quiz).2).current_question =
          quiz.current_question ∧
        ((load_next_question bank pickC pickQ quiz).2).used_indices = quiz.used_indices)
    ∧ (widened_pool_spec bank quiz ≠ [] →
        (load_next_question bank pickC pickQ quiz).1 = true ∧
        ∃ p, p ∈ widened_pool_spec bank quiz ∧
          ((load_next_question bank pickC pickQ quiz).2).current_question = some p.2 ∧
          ((load_next_question bank pickC pickQ quiz).2).used_indices =
            quiz.used_indices ++ [p.1]) := by
  have hspec : widened_pool_spec bank quiz = pool_widened bank quiz := by
    by_cases hm : quiz.mode = "weak_only"
    · have hne : quiz.weak_only_list ≠ [] := hwl hm
      have hie : quiz.weak_only_list.isEmpty = false := by
        simp [List.isEmpty_iff, hne]
      simp [widened_pool_spec, pool_widened, hm, hie]
    · simp [widened_pool_spec, pool_widened, hm]
  have hap : active_pool bank pickC quiz = pool_widened bank quiz := by
    simp [active_pool, hempty]
  refine ⟨hspec, ?_, ?_⟩
  · intro hW
    have hia : (active_pool bank pickC quiz).isEmpty = true := by
      rw [hap, ← hspec, hW]
      rfl
    have hval : (load_next_question bank pickC pickQ quiz).1 = false := by
      simp [load_next_question, hia]
    refine ⟨hval, ?_, ?_⟩
    · rw [load_failure bank pickC pickQ quiz hval]
    · rw [load_failure bank pickC pickQ quiz hval]
  · intro hW
    have hia : ¬ (active_pool bank pickC quiz).isEmpty = true := by
      rw [hap, ← hspec]
      simp [List.isEmpty_iff, hW]
    have hval : (load_next_question bank pickC pickQ quiz).1 = true := by
      simp [load_next_question, hia]
    obtain ⟨p, hp, h1, h2⟩ := load_success bank pickC pickQ quiz hval
    exact ⟨hval, p, by rw [hspec, ← hap]; exact hp, h1, h2⟩

/-- Witness for `load_widening_behavior`: the fresh Mathematics session
targets cluster 4, `bank1` has none, and the widened pool supplies `mq`. -/
theorem load_widening_behavior_witness :
    widened_pool_spec bank1 quiz_m0 = pool_widened bank1 quiz_m0 ∧
    (load_next_question bank1 0 0 quiz_m0).1 = true :=
  ⟨(load_widening_behavior bank1 0 0 quiz_m0 (by decide) (by decide)).1,
   ((load_widening_behavior bank1 0 0 quiz_m0 (by decide) (by decide)).2.2
     (by decide)).1⟩
